import Mathlib

/-!
Verification of the datadoggo-v3-alpaca ingestion pipeline.

This file gives a shallow embedding, in Lean, of the core of the
repository: the rate-limit classification and retry loops of
`utils/retry.py`, the normalizers of `fetchers/_base.py`,
`fetchers/news.py`, `fetchers/assets.py`, `fetchers/option_contracts.py`,
`fetchers/stock.py`, `fetchers/crypto.py`, `fetchers/option.py`, the
pagination loop of `fetchers/option_contracts.py`, and the upsert
operations of `repository/postgres.py`.  Python cell values are embedded
as an explicit inductive type, pandas DataFrames as column lists plus
row records, time as an explicit `now` parameter, and fallible upstream
calls as `Except`-valued operations indexed by invocation number.
Theorems about these definitions settle the specification claims.
-/

/-- Embedding of a scalar Python value as it appears in a DataFrame cell
or as an upstream object attribute.  `none` is Python `None`, `nan` the
float NaN (the value `pandas.isna` detects), `ts` a timezone-aware UTC
instant, `naiveTs` a timezone-naive instant, `dec` a `Decimal` literal
kept verbatim, and `float` a non-NaN float literal kept verbatim. -/
inductive Scalar where
  | none
  | nan
  | str (s : String)
  | int (n : Int)
  | bool (b : Bool)
  | ts (epoch : Int)
  | naiveTs (epoch : Int)
  | dec (d : String)
  | float (f : String)
deriving DecidableEq, Repr

/-- Embedding of a Python value that may also be a list or a tuple of
scalars (the shapes the symbols-normalization code distinguishes). -/
inductive Value where
  | scalar (s : Scalar)
  | pylist (xs : List Scalar)
  | pytuple (xs : List Scalar)
deriving DecidableEq, Repr

/-- Python `str()` applied to a scalar: `str(None)` is the string
"None", strings are returned as-is, and the remaining literals keep
their printed form. -/
def Scalar.pyStr : Scalar → String
  | .none => "None"
  | .nan => "nan"
  | .str s => s
  | .int n => toString n
  | .bool b => if b then "True" else "False"
  | .ts n => toString n
  | .naiveTs n => toString n
  | .dec d => d
  | .float f => f

/-- Python truthiness of a scalar (used by the `if value else None`
pattern in the option-contracts normalizer). -/
def Scalar.pyTruthy : Scalar → Bool
  | .none => false
  | .nan => true
  | .str s => !s.isEmpty
  | .int n => n != 0
  | .bool b => b
  | .ts _ => true
  | .naiveTs _ => true
  | .dec d => !(d == "0")
  | .float f => !(f == "0.0")

/-- Whether a scalar is Python `None`. -/
def Scalar.isNone : Scalar → Bool
  | .none => true
  | _ => false

/-- Python `str()` on an embedded value; on lists and tuples it prints
the elements honestly but no claim depends on that rendering. -/
def Value.pyStr : Value → String
  | .scalar s => s.pyStr
  | .pylist xs => "[" ++ String.intercalate ", " (xs.map Scalar.pyStr) ++ "]"
  | .pytuple xs => "(" ++ String.intercalate ", " (xs.map Scalar.pyStr) ++ ")"

/-- Shorthand for a string-valued cell. -/
def Value.vStr (s : String) : Value := .scalar (.str s)

/-- Shorthand for the `None` cell. -/
def Value.vNone : Value := .scalar .none

/-- Embedding of a Python exception as the retry logic observes it:
whether the object is an instance of the provider's `APIError`, and its
`status_code` attribute when the attribute exists (`Option.none` models
a missing attribute, as probed by `hasattr`). -/
structure PyExc where
  isAPIError : Bool
  status_code : Option Int
deriving DecidableEq, Repr

/-- Embedding of `is_rate_limit_error` from `utils/retry.py`: an
`APIError` is retryable when it has a `status_code` attribute equal to
429; any other exception with a `status_code` attribute equal to 429 is
also retryable; everything else is not. -/
def is_rate_limit_error (e : PyExc) : Bool :=
  if e.isAPIError then
    e.status_code.isSome && e.status_code == some 429
  else if e.status_code.isSome then
    e.status_code == some 429
  else
    false

/-- The `stop_after_attempt` argument of the `alpaca_retry` decorator. -/
def alpaca_retry_stop_attempts : Nat := 5

/-- The `min` argument of `wait_random_exponential` in `alpaca_retry`. -/
def alpaca_retry_wait_min : Nat := 1

/-- The `max` argument of `wait_random_exponential` in `alpaca_retry`. -/
def alpaca_retry_wait_max : Nat := 60

/-- The `multiplier` argument of `wait_random_exponential` in
`alpaca_retry`. -/
def alpaca_retry_wait_multiplier : Nat := 1

/-- Tenacity's attempt loop as configured by `alpaca_retry`
(`retry_if_exception(is_rate_limit_error)`, `reraise=True`): the
operation is a function from the invocation number (1-based) to its
outcome, and the loop returns the final outcome together with how many
times the operation was invoked.  With one remaining attempt the
outcome is returned as is (a final retryable failure is re-raised);
otherwise a retryable failure leads to another attempt and any other
outcome is final. -/
def tenacityLoop (op : Nat → Except PyExc α) (attempt : Nat) :
    Nat → Except PyExc α × Nat
  | 0 => (op attempt, 1)
  | 1 => (op attempt, 1)
  | remaining + 2 =>
    match op attempt with
    | .ok v => (.ok v, 1)
    | .error e =>
      if is_rate_limit_error e then
        let rest := tenacityLoop op (attempt + 1) (remaining + 1)
        (rest.1, rest.2 + 1)
      else
        (.error e, 1)

/-- Embedding of the synchronous `alpaca_retry` decorator applied to an
operation: run the tenacity loop from attempt 1 with at most
`stop_after_attempt(5)` attempts. -/
def alpaca_retry (op : Nat → Except PyExc α) : Except PyExc α × Nat :=
  tenacityLoop op 1 alpaca_retry_stop_attempts

/-- The `max_attempts` local of `alpaca_retry_async`. -/
def alpaca_retry_async_max_attempts : Nat := 5

/-- The `min_wait` local of `alpaca_retry_async`. -/
def alpaca_retry_async_min_wait : Nat := 1

/-- The `max_wait` local of `alpaca_retry_async`. -/
def alpaca_retry_async_max_wait : Nat := 60

/-- The `multiplier` local of `alpaca_retry_async`. -/
def alpaca_retry_async_multiplier : Nat := 1

/-- The pre-jitter wait time computed by `alpaca_retry_async` for a
given attempt number: `min(max_wait, min_wait * 2**(attempt-1) *
multiplier)`. -/
def alpacaRetryAsyncWait (attempt : Nat) : Nat :=
  min alpaca_retry_async_max_wait
    (alpaca_retry_async_min_wait * 2 ^ (attempt - 1) * alpaca_retry_async_multiplier)

/-- The `RuntimeError("Unreachable code")` raised after the loop of
`alpaca_retry_async`; it has no `status_code` attribute. -/
def runtimeUnreachableError : PyExc := { isAPIError := false, status_code := Option.none }

/-- The `for attempt in range(1, max_attempts + 1)` loop of
`alpaca_retry_async`, recursing on the number of loop iterations left.
Only `APIError` instances are caught; a caught error that is not a
rate-limit error is re-raised, as is a rate-limit error on the final
attempt; otherwise the loop waits and tries again. -/
def asyncRetryLoop (op : Nat → Except PyExc α) (attempt : Nat) :
    Nat → Except PyExc α × Nat
  | 0 => (.error runtimeUnreachableError, 0)
  | remaining + 1 =>
    match op attempt with
    | .ok v => (.ok v, 1)
    | .error e =>
      if !e.isAPIError then
        (.error e, 1)
      else if !is_rate_limit_error e then
        (.error e, 1)
      else if alpaca_retry_async_max_attempts ≤ attempt then
        (.error e, 1)
      else
        let rest := asyncRetryLoop op (attempt + 1) remaining
        (rest.1, rest.2 + 1)

/-- Embedding of `alpaca_retry_async` applied to an operation. -/
def alpaca_retry_async (op : Nat → Except PyExc α) : Except PyExc α × Nat :=
  asyncRetryLoop op 1 alpaca_retry_async_max_attempts

/-- An exception whose `status_code` is 429 is classified retryable,
whatever its type. -/
theorem is_rate_limit_error_iff (e : PyExc) :
    is_rate_limit_error e = true ↔ e.status_code = some 429 := by
  unfold is_rate_limit_error
  rcases e with ⟨api, sc⟩
  cases api <;> cases sc <;> simp

theorem is_rate_limit_error_of_429 (e : PyExc) (h : e.status_code = some 429) :
    is_rate_limit_error e = true :=
  (is_rate_limit_error_iff e).mpr h

theorem is_rate_limit_error_of_non429 (e : PyExc) (h : e.status_code ≠ some 429) :
    is_rate_limit_error e = false := by
  rcases hb : is_rate_limit_error e with _ | _
  · rfl
  · exact absurd ((is_rate_limit_error_iff e).mp hb) h

/-- When every invocation fails with a rate-limit error, the tenacity
loop consumes all remaining attempts and re-raises the last error. -/
theorem tenacityLoop_all_fail {α : Type} (op : Nat → Except PyExc α) (e : Nat → PyExc)
    (hfail : ∀ n, op n = .error (e n))
    (hrl : ∀ n, is_rate_limit_error (e n) = true) :
    ∀ k attempt, tenacityLoop op attempt (k + 1) = (.error (e (attempt + k)), k + 1) := by
  intro k
  induction k with
  | zero => intro attempt; simp [tenacityLoop, hfail]
  | succ k ih =>
    intro attempt
    have h2 : k + 1 + 1 = k + 2 := rfl
    rw [h2]
    simp only [tenacityLoop, hfail attempt, hrl attempt, if_true]
    rw [ih (attempt + 1)]
    simp [Nat.add_assoc, Nat.add_comm 1 k]

/-- When every invocation fails with a rate-limit `APIError`, the async
loop consumes all remaining attempts and re-raises the last error. -/
theorem asyncRetryLoop_all_fail {α : Type} (op : Nat → Except PyExc α) (e : Nat → PyExc)
    (hfail : ∀ n, op n = .error (e n))
    (hapi : ∀ n, (e n).isAPIError = true)
    (hrl : ∀ n, is_rate_limit_error (e n) = true) :
    ∀ k attempt, attempt + k = alpaca_retry_async_max_attempts →
      asyncRetryLoop op attempt (k + 1) = (.error (e (attempt + k)), k + 1) := by
  intro k
  induction k with
  | zero =>
    intro attempt hat
    have hle : alpaca_retry_async_max_attempts ≤ attempt := by omega
    simp [asyncRetryLoop, hfail, hapi, hrl, hle]
  | succ k ih =>
    intro attempt hat
    have hlt : ¬ alpaca_retry_async_max_attempts ≤ attempt := by
      simp only [alpaca_retry_async_max_attempts] at hat ⊢; omega
    have hstep : asyncRetryLoop op attempt (k + 1 + 1) =
        ((asyncRetryLoop op (attempt + 1) (k + 1)).1,
         (asyncRetryLoop op (attempt + 1) (k + 1)).2 + 1) := by
      conv_lhs => rw [asyncRetryLoop]
      simp [hfail attempt, hapi attempt, hrl attempt, hlt]
    rw [hstep, ih (attempt + 1) (by omega)]
    simp [Nat.add_assoc, Nat.add_comm 1 k]

/-- C2: given an operation that fails with a rate-limit (429) APIError
on every call, both `alpaca_retry` and `alpaca_retry_async` invoke it
exactly 5 times and re-raise the last error; given an operation that is
rate-limited on the first call and succeeds on the second, both invoke
it exactly 2 times and return the success value. -/
theorem claim_C2_retry_bound {α : Type} (op op₂ : Nat → Except PyExc α) (e : Nat → PyExc) (v : α)
    (hfail : ∀ n, op n = .error (e n))
    (hapi : ∀ n, (e n).isAPIError = true)
    (h429 : ∀ n, (e n).status_code = some 429)
    (hop21 : op₂ 1 = .error (e 1))
    (hop22 : op₂ 2 = .ok v) :
    alpaca_retry op = (.error (e 5), 5) ∧
    alpaca_retry_async op = (.error (e 5), 5) ∧
    alpaca_retry op₂ = (.ok v, 2) ∧
    alpaca_retry_async op₂ = (.ok v, 2) := by
  have hrl : ∀ n, is_rate_limit_error (e n) = true :=
    fun n => is_rate_limit_error_of_429 _ (h429 n)
  refine ⟨?_, ?_, ?_, ?_⟩
  · have h := tenacityLoop_all_fail op e hfail hrl 4 1
    simpa [alpaca_retry, alpaca_retry_stop_attempts] using h
  · have h := asyncRetryLoop_all_fail op e hfail hapi hrl 4 1 rfl
    simpa [alpaca_retry_async, alpaca_retry_async_max_attempts] using h
  · simp [alpaca_retry, alpaca_retry_stop_attempts, tenacityLoop, hop21, hop22, hrl 1]
  · simp [alpaca_retry_async, alpaca_retry_async_max_attempts, asyncRetryLoop,
      hop21, hop22, hapi 1, hrl 1]

/-- An operation that always fails with status 429 carried by an
`APIError`. -/
def alwaysRateLimited : Nat → Except PyExc Nat :=
  fun _ => .error { isAPIError := true, status_code := some 429 }

/-- An operation rate-limited on the first call and returning 7 from
the second call on. -/
def secondCallOk : Nat → Except PyExc Nat :=
  fun n => if n = 1 then .error { isAPIError := true, status_code := some 429 } else .ok 7

theorem claim_C2_retry_bound_witness :
    alpaca_retry alwaysRateLimited =
      (.error { isAPIError := true, status_code := some 429 }, 5) ∧
    alpaca_retry_async alwaysRateLimited =
      (.error { isAPIError := true, status_code := some 429 }, 5) ∧
    alpaca_retry secondCallOk = (.ok 7, 2) ∧
    alpaca_retry_async secondCallOk = (.ok 7, 2) :=
  claim_C2_retry_bound alwaysRateLimited secondCallOk
    (fun _ => { isAPIError := true, status_code := some 429 }) 7
    (fun _ => rfl) (fun _ => rfl) (fun _ => rfl) (by simp [secondCallOk]) (by simp [secondCallOk])

/-- C3: a failure is classified retryable if and only if it carries a
429 status code, and an operation whose first failure is not a
rate-limit signal is invoked exactly once by `alpaca_retry`, the error
propagating unchanged. -/
theorem claim_C3_fatal_path {α : Type} (e : PyExc) (op : Nat → Except PyExc α) (f : PyExc)
    (hof : op 1 = .error f) (hnf : f.status_code ≠ some 429) :
    (is_rate_limit_error e = true ↔ e.status_code = some 429) ∧
    alpaca_retry op = (.error f, 1) := by
  refine ⟨is_rate_limit_error_iff e, ?_⟩
  have hrl : is_rate_limit_error f = false := is_rate_limit_error_of_non429 f hnf
  simp [alpaca_retry, alpaca_retry_stop_attempts, tenacityLoop, hof, hrl]

/-- An operation that always fails with a 500 `APIError`. -/
def alwaysServerError : Nat → Except PyExc Nat :=
  fun _ => .error { isAPIError := true, status_code := some 500 }

theorem claim_C3_fatal_path_witness :
    (is_rate_limit_error { isAPIError := false, status_code := some 429 } = true ↔
      ({ isAPIError := false, status_code := some 429 } : PyExc).status_code = some 429) ∧
    alpaca_retry alwaysServerError =
      (.error { isAPIError := true, status_code := some 500 }, 1) :=
  claim_C3_fatal_path { isAPIError := false, status_code := some 429 }
    alwaysServerError { isAPIError := true, status_code := some 500 }
    rfl (by decide)

/-- A failure that is not an `APIError` instance but carries a 429
status code, like the `DummyAPIError` used in the repository's own
retry tests. -/
def nonApi429 : PyExc := { isAPIError := false, status_code := some 429 }

/-- An operation that always fails with a non-`APIError` exception
carrying status 429. -/
def alwaysNonApiRateLimited : Nat → Except PyExc Nat := fun _ => .error nonApi429

/-- C6 counterexample: the two retry variants do not classify the same
set of failures as retryable.  On an operation that always fails with a
non-`APIError` exception carrying status 429, the synchronous variant
retries and invokes it 5 times, while the asynchronous variant (whose
`except` clause only catches `APIError`) propagates the failure after a
single invocation. -/
theorem claim_C6_counterexample :
    alpaca_retry alwaysNonApiRateLimited = (.error nonApi429, 5) ∧
    alpaca_retry_async alwaysNonApiRateLimited = (.error nonApi429, 1) := by
  constructor <;> rfl

/-- C6 amended: the synchronous and asynchronous retry variants share
the same attempt bound (5) and the same backoff bounds (1s base, 60s
ceiling, multiplier 1), and behave identically on `APIError` failures:
an operation always failing with a rate-limited `APIError` is invoked
exactly 5 times by both.  Their failure classification differs on
non-`APIError` exceptions: one carrying status 429 is retried by the
synchronous variant (5 invocations) but propagates from the
asynchronous variant after exactly 1 invocation. -/
theorem claim_C6_amended {α : Type} (op op' : Nat → Except PyExc α) (e e' : Nat → PyExc)
    (hfail : ∀ n, op n = .error (e n))
    (hapi : ∀ n, (e n).isAPIError = true)
    (h429 : ∀ n, (e n).status_code = some 429)
    (hfail' : ∀ n, op' n = .error (e' n))
    (hapi' : ∀ n, (e' n).isAPIError = false)
    (h429' : ∀ n, (e' n).status_code = some 429) :
    alpaca_retry_stop_attempts = alpaca_retry_async_max_attempts ∧
    alpaca_retry_wait_min = alpaca_retry_async_min_wait ∧
    alpaca_retry_wait_max = alpaca_retry_async_max_wait ∧
    alpaca_retry_wait_multiplier = alpaca_retry_async_multiplier ∧
    (alpaca_retry op).2 = 5 ∧ (alpaca_retry_async op).2 = 5 ∧
    (alpaca_retry op').2 = 5 ∧ (alpaca_retry_async op').2 = 1 := by
  have hrl : ∀ n, is_rate_limit_error (e n) = true :=
    fun n => is_rate_limit_error_of_429 _ (h429 n)
  have hrl' : ∀ n, is_rate_limit_error (e' n) = true :=
    fun n => is_rate_limit_error_of_429 _ (h429' n)
  refine ⟨rfl, rfl, rfl, rfl, ?_, ?_, ?_, ?_⟩
  · have h := tenacityLoop_all_fail op e hfail hrl 4 1
    simp [alpaca_retry, alpaca_retry_stop_attempts, h]
  · have h := asyncRetryLoop_all_fail op e hfail hapi hrl 4 1 rfl
    simp [alpaca_retry_async, alpaca_retry_async_max_attempts, h]
  · have h := tenacityLoop_all_fail op' e' hfail' hrl' 4 1
    simp [alpaca_retry, alpaca_retry_stop_attempts, h]
  · simp [alpaca_retry_async, alpaca_retry_async_max_attempts, asyncRetryLoop,
      hfail' 1, hapi' 1]

theorem claim_C6_amended_witness :
    alpaca_retry_stop_attempts = alpaca_retry_async_max_attempts ∧
    alpaca_retry_wait_min = alpaca_retry_async_min_wait ∧
    alpaca_retry_wait_max = alpaca_retry_async_max_wait ∧
    alpaca_retry_wait_multiplier = alpaca_retry_async_multiplier ∧
    (alpaca_retry alwaysRateLimited).2 = 5 ∧
    (alpaca_retry_async alwaysRateLimited).2 = 5 ∧
    (alpaca_retry alwaysNonApiRateLimited).2 = 5 ∧
    (alpaca_retry_async alwaysNonApiRateLimited).2 = 1 :=
  claim_C6_amended alwaysRateLimited alwaysNonApiRateLimited
    (fun _ => { isAPIError := true, status_code := some 429 }) (fun _ => nonApi429)
    (fun _ => rfl) (fun _ => rfl) (fun _ => rfl) (fun _ => rfl) (fun _ => rfl) (fun _ => rfl)

/-- A DataFrame row in records orientation: an ordered association list
from column name to cell value, as produced by
`DataFrame.to_dict(orient="records")`. -/
abbrev Record := List (String × Value)

/-- The value of column `c` in a record, when present. -/
def lookupCol (r : Record) (c : String) : Option Value :=
  (r.find? (fun p => p.1 == c)).map (fun p => p.2)

/-- Embedding of a pandas DataFrame: the names of its index levels, its
column names, and its rows as records carrying the index levels
followed by the columns.  A default RangeIndex is represented by an
empty `indexCols` list. -/
structure DF where
  indexCols : List String
  columns : List String
  rows : List Record
deriving DecidableEq, Repr

/-- pandas `DataFrame.empty`: true when either axis has length zero. -/
def DF.isEmpty (df : DF) : Bool := df.rows.isEmpty || df.columns.isEmpty

/-- Well-formedness: every row carries exactly the index levels and
columns of the frame, in order. -/
def DF.Wf (df : DF) : Prop := ∀ r ∈ df.rows, r.map Prod.fst = df.indexCols ++ df.columns

/-- `DataFrame.reset_index()` at the call sites of this repository:
materializes the (symbol, timestamp) MultiIndex levels as leading
columns.  On a frame whose index is the default RangeIndex
(`indexCols = []`) it is the identity here. -/
def DF.resetIndex (df : DF) : DF := ⟨[], df.indexCols ++ df.columns, df.rows⟩

/-- Column assignment `df[c] = v` with a constant value: overwrites the
column when it exists, otherwise appends it. -/
def DF.assignConst (df : DF) (c : String) (v : Value) : DF :=
  if c ∈ df.columns then
    ⟨df.indexCols, df.columns,
      df.rows.map (fun r => r.map (fun p => if p.1 = c then (p.1, v) else p))⟩
  else
    ⟨df.indexCols, df.columns ++ [c], df.rows.map (fun r => r ++ [(c, v)])⟩

/-- Column assignment `df[c] = df[c].map(f)` (or `.apply(f)`) for an
existing column: every cell of column `c` is passed through `f`. -/
def DF.mapCol (df : DF) (c : String) (f : Value → Value) : DF :=
  ⟨df.indexCols, df.columns,
    df.rows.map (fun r => r.map (fun p => if p.1 = c then (p.1, f p.2) else p))⟩

/-- Column selection `df[cols]`: restricts and reorders each row to
exactly the given columns. -/
def DF.selectColumns (df : DF) (cols : List String) : DF :=
  ⟨[], cols, df.rows.map (fun r => cols.map (fun c => (c, (lookupCol r c).getD Value.vNone)))⟩

/-- Embedding of `pandas.to_datetime(column, errors="coerce",
utc=True)` on one cell: aware instants are converted to UTC, naive
instants are localized as UTC, and any other value becomes the missing
timestamp (real pandas would also parse well-formed date strings; no
claim exercises string parsing, their inputs are instants or malformed
values). -/
def to_datetime_utc : Value → Value
  | .scalar (.ts n) => .scalar (.ts n)
  | .scalar (.naiveTs n) => .scalar (.ts n)
  | _ => .scalar .none

/-- The per-cell conversion done by `_to_records` in
`repository/postgres.py`: timezone-naive timestamps are localized to
UTC, aware ones converted to UTC, everything else kept. -/
def recordCellToDb : Value → Value
  | .scalar (.naiveTs n) => .scalar (.ts n)
  | v => v

/-- Embedding of `_to_records` from `repository/postgres.py`: rows in
records orientation with timestamps UTC-normalized. -/
def _to_records (df : DF) : List Record :=
  df.rows.map (fun r => r.map (fun p => (p.1, recordCellToDb p.2)))

/-- The `ingested_at` injection shared by all upsert methods: when the
frame lacks the column, append it with the write-time UTC instant. -/
def addIngestedAt (now : Int) (df : DF) : DF :=
  if "ingested_at" ∈ df.columns then df
  else
    ⟨df.indexCols, df.columns ++ ["ingested_at"],
      df.rows.map (fun r => r ++ [("ingested_at", Value.scalar (.ts now))])⟩

/-- The conflict-key projection of a record: the values of the conflict
columns, in order. -/
def keyOf (K : List String) (r : Record) : List (Option Value) := K.map (lookupCol r)

/-- The effect of one record inside the single
`INSERT ... ON CONFLICT DO UPDATE` statement: when a stored row matches
on the conflict columns, every non-conflict column is overwritten with
the incoming values (the conflict columns agree by the match, so the
whole row is replaced); otherwise the record is inserted at the end. -/
def upsertRow (K : List String) (t : List Record) (r : Record) : List Record :=
  if t.any (fun row => keyOf K row == keyOf K r) then
    t.map (fun row => if keyOf K row == keyOf K r then r else row)
  else
    t ++ [r]

/-- Result of one upsert call: the stored table, the returned row
count, and whether a transaction was opened. -/
structure UpsertResult where
  table : List Record
  rowCount : Nat
  openedTxn : Bool
deriving DecidableEq, Repr

/-- Embedding of `PostgresRepository.upsert_bars`: an empty frame
returns 0 without opening a transaction; otherwise `ingested_at` is
injected when absent, the frame is converted to records, the single
statement applies every record in order, and the returned count is the
number of records sent. -/
def upsert_bars (now : Int) (table : List Record) (df : DF)
    (conflict_columns : List String) : UpsertResult :=
  if df.isEmpty then ⟨table, 0, false⟩
  else
    let payload := addIngestedAt now df
    let records := _to_records payload
    ⟨records.foldl (upsertRow conflict_columns) table, records.length, true⟩

/-- Embedding of `_normalize_symbols` from `fetchers/news.py`: a list
or tuple keeps its non-None elements stringified in order, None and the
float NaN become the empty list, and any other value becomes a
one-element list of its string form. -/
def news_normalize_symbols : Value → List String
  | .pylist xs => (xs.filter (fun x => !x.isNone)).map Scalar.pyStr
  | .pytuple xs => (xs.filter (fun x => !x.isNone)).map Scalar.pyStr
  | .scalar .none => []
  | .scalar .nan => []
  | v => [v.pyStr]

/-- Embedding of `_normalize_symbols` from `repository/postgres.py`
(the list case and the tuple case are written separately there but have
the same body). -/
def repo_normalize_symbols : Value → List String
  | .pylist xs => (xs.filter (fun x => !x.isNone)).map Scalar.pyStr
  | .pytuple xs => (xs.filter (fun x => !x.isNone)).map Scalar.pyStr
  | .scalar .none => []
  | .scalar .nan => []
  | v => [v.pyStr]

/-- A normalized symbols list stored back into a cell. -/
def symbolsToValue (ss : List String) : Value := .pylist (ss.map Scalar.str)

/-- The `KeyError` raised by a pandas column access on a frame lacking
that column; like `RuntimeError`, it is no `APIError` and carries no
`status_code` attribute. -/
def keyErrorExc : PyExc := { isAPIError := false, status_code := Option.none }

/-- Embedding of `PostgresRepository.upsert_news`: like `upsert_bars`
with conflict column `id`, after normalizing the `symbols` column.  The
empty check returns before any column access; on a non-empty frame the
unconditional `payload["symbols"]` access raises `KeyError` when the
frame has no `symbols` column, so the embedding is `Except`-valued. -/
def upsert_news (now : Int) (table : List Record) (df : DF) :
    Except PyExc UpsertResult :=
  if df.isEmpty then .ok ⟨table, 0, false⟩
  else
    let payload := addIngestedAt now df
    if "symbols" ∈ payload.columns then
      let payload := payload.mapCol "symbols" (fun v => symbolsToValue (repo_normalize_symbols v))
      let records := _to_records payload
      .ok ⟨records.foldl (upsertRow ["id"]) table, records.length, true⟩
    else
      .error keyErrorExc

/-- Embedding of `PostgresRepository.upsert_assets`: like `upsert_bars`
with conflict column `id`. -/
def upsert_assets (now : Int) (table : List Record) (df : DF) : UpsertResult :=
  if df.isEmpty then ⟨table, 0, false⟩
  else
    let payload := addIngestedAt now df
    let records := _to_records payload
    ⟨records.foldl (upsertRow ["id"]) table, records.length, true⟩

/-- Embedding of `PostgresRepository.upsert_option_contracts`: like
`upsert_bars` with conflict column `id`. -/
def upsert_option_contracts (now : Int) (table : List Record) (df : DF) : UpsertResult :=
  if df.isEmpty then ⟨table, 0, false⟩
  else
    let payload := addIngestedAt now df
    let records := _to_records payload
    ⟨records.foldl (upsertRow ["id"]) table, records.length, true⟩

/-- The fixed column set `prepare_bars_dataframe` produces for an empty
bars response. -/
def barEmptyColumns : List String :=
  ["symbol", "timestamp", "open", "high", "low", "close",
   "volume", "trade_count", "vw", "timeframe"]

/-- Embedding of `prepare_bars_dataframe` from `fetchers/_base.py`: an
empty response yields an empty frame with the fixed bar column set;
otherwise the (symbol, timestamp) index is materialized as columns, the
timestamp column is coerced to UTC, and the caller's timeframe label is
stamped verbatim. -/
def prepare_bars_dataframe (df : DF) (timeframe : String) : DF :=
  if df.isEmpty then ⟨[], barEmptyColumns, []⟩
  else
    let normalized := df.resetIndex
    let normalized :=
      if "timestamp" ∈ normalized.columns then normalized.mapCol "timestamp" to_datetime_utc
      else normalized
    normalized.assignConst "timeframe" (Value.vStr timeframe)

/-- The post-fetch shaping of `fetch_stock_historical` applied to the
raw bars frame. -/
def fetch_stock_df (raw : DF) (timeframe : String) : DF :=
  let d := prepare_bars_dataframe raw timeframe
  if d.isEmpty then d else d.assignConst "source" (Value.vStr "alpaca")

/-- The post-fetch shaping of `fetch_crypto_historical`: the `exchange`
column is defaulted to None when missing (before the empty check), and
`source` is stamped on non-empty frames. -/
def fetch_crypto_df (raw : DF) (timeframe : String) : DF :=
  let d := prepare_bars_dataframe raw timeframe
  let d := if "exchange" ∈ d.columns then d else d.assignConst "exchange" Value.vNone
  if d.isEmpty then d else d.assignConst "source" (Value.vStr "alpaca")

/-- The post-fetch shaping of `fetch_option_historical`: on non-empty
frames `open_interest` is defaulted to 0 and `underlying_symbol` to
None when missing, and `source` is stamped; the empty check happens
before those defaults. -/
def fetch_option_df (raw : DF) (timeframe : String) : DF :=
  let d := prepare_bars_dataframe raw timeframe
  if d.isEmpty then d
  else
    let d :=
      if "open_interest" ∈ d.columns then d
      else d.assignConst "open_interest" (Value.scalar (.int 0))
    let d :=
      if "underlying_symbol" ∈ d.columns then d
      else d.assignConst "underlying_symbol" Value.vNone
    d.assignConst "source" (Value.vStr "alpaca")

/-- The fixed news column set of `fetch_news_articles`. -/
def newsExpectedColumns : List String :=
  ["id", "headline", "summary", "author", "url",
   "created_at", "updated_at", "source", "symbols"]

/-- Embedding of `_default_source` from `fetchers/news.py`: a missing
or NaN source becomes the fallback provenance string, anything else its
string form. -/
def _default_source : Value → Value
  | .scalar .none => Value.vStr "alpaca"
  | .scalar .nan => Value.vStr "alpaca"
  | v => Value.vStr v.pyStr

/-- The shaping of `fetch_news_articles` applied to the raw news frame:
an empty frame is returned as is (before any column injection);
otherwise every missing expected column is injected as None, `symbols`
is normalized, `id` stringified, the two timestamp columns coerced to
UTC, `source` defaulted, and the result restricted to exactly the
expected columns in order. -/
def fetch_news_df (raw : DF) : DF :=
  if raw.isEmpty then raw
  else
    let d := newsExpectedColumns.foldl
      (fun d c => if c ∈ d.columns then d else d.assignConst c Value.vNone) raw
    let d := d.mapCol "symbols" (fun v => symbolsToValue (news_normalize_symbols v))
    let d := d.mapCol "id" (fun v => Value.vStr v.pyStr)
    let d := d.mapCol "created_at" to_datetime_utc
    let d := d.mapCol "updated_at" to_datetime_utc
    let d := d.mapCol "source" _default_source
    d.selectColumns newsExpectedColumns

/-- Retry-wrapped `fetch_stock_historical`: the whole body (upstream
call plus shaping) runs under the `alpaca_retry` decorator.  The client
is the upstream call's outcome per invocation number; the result also
counts the invocations. -/
def fetch_stock_historical (client : Nat → Except PyExc DF) (timeframe : String) :
    Except PyExc DF × Nat :=
  alpaca_retry (fun n => (client n).map (fun raw => fetch_stock_df raw timeframe))

/-- Retry-wrapped `fetch_news_articles`. -/
def fetch_news_articles (client : Nat → Except PyExc DF) : Except PyExc DF × Nat :=
  alpaca_retry (fun n => (client n).map fetch_news_df)

/-- `fetch_crypto_historical` carries no retry decorator: the upstream
client is called exactly once and any failure propagates. -/
def fetch_crypto_historical (client : Nat → Except PyExc DF) (timeframe : String) :
    Except PyExc DF × Nat :=
  ((client 1).map (fun raw => fetch_crypto_df raw timeframe), 1)

/-- `fetch_option_historical` carries no retry decorator either. -/
def fetch_option_historical (client : Nat → Except PyExc DF) (timeframe : String) :
    Except PyExc DF × Nat :=
  ((client 1).map (fun raw => fetch_option_df raw timeframe), 1)

/-- Python truthiness of an embedded value. -/
def Value.pyTruthy : Value → Bool
  | .scalar s => s.pyTruthy
  | .pylist xs => !xs.isEmpty
  | .pytuple xs => !xs.isEmpty

/-- Embedding of an upstream asset object as `fetch_assets` probes it.
Attributes read with `getattr(asset, name, None)` are `Option`-valued,
`Option.none` modelling a missing attribute; `asset.id`,
`asset.exchange`, `asset.symbol`, `asset.status` and `asset.tradable`
are read directly.  `asset_class` may be absent, in which case the code
falls back to the `class_` attribute. -/
structure UpstreamAsset where
  id : String
  asset_class : Option Value
  class_ : Value
  exchange : Value
  symbol : Value
  name : Option Value
  status : Value
  tradable : Value
  marginable : Option Value
  shortable : Option Value
  easy_to_borrow : Option Value
  fractionable : Option Value
  options_enabled : Option Value
  maintenance_margin_requirement : Option Value
  min_order_size : Option Value
  min_trade_increment : Option Value
  price_increment : Option Value
deriving Repr

/-- The record `fetch_assets` builds from one asset object. -/
def assetRecord (a : UpstreamAsset) : Record :=
  [("id", Value.vStr a.id),
   ("asset_class", match a.asset_class with | some v => v | Option.none => a.class_),
   ("exchange", a.exchange),
   ("symbol", a.symbol),
   ("name", a.name.getD Value.vNone),
   ("status", a.status),
   ("tradable", a.tradable),
   ("marginable", a.marginable.getD Value.vNone),
   ("shortable", a.shortable.getD Value.vNone),
   ("easy_to_borrow", a.easy_to_borrow.getD Value.vNone),
   ("fractionable", a.fractionable.getD Value.vNone),
   ("options_enabled", a.options_enabled.getD Value.vNone),
   ("maintenance_margin_requirement", a.maintenance_margin_requirement.getD Value.vNone),
   ("min_order_size", a.min_order_size.getD Value.vNone),
   ("min_trade_increment", a.min_trade_increment.getD Value.vNone),
   ("price_increment", a.price_increment.getD Value.vNone)]

/-- The asset record schema, in the order the record dict is built. -/
def assetColumns : List String :=
  ["id", "asset_class", "exchange", "symbol", "name", "status", "tradable",
   "marginable", "shortable", "easy_to_borrow", "fractionable", "options_enabled",
   "maintenance_margin_requirement", "min_order_size", "min_trade_increment",
   "price_increment"]

/-- The shaping of `fetch_assets`: zero upstream items yield a bare
empty frame (`pd.DataFrame()`); otherwise the records are framed and
the provenance column stamped. -/
def fetch_assets_df (assets : List UpstreamAsset) : DF :=
  if assets.isEmpty then ⟨[], [], []⟩
  else
    let df : DF := ⟨[], assetColumns, assets.map assetRecord⟩
    df.assignConst "source" (Value.vStr "alpaca")

/-- Embedding of an upstream option-contract object as
`fetch_option_contracts` probes it; `Option`-valued fields are the ones
read through `getattr(contract, name, None)`. -/
structure UpstreamOptionContract where
  id : String
  symbol : Value
  name : Option Value
  status : Value
  tradable : Value
  expiration_date : Value
  root_symbol : Value
  underlying_symbol : Value
  underlying_asset_id : Option Value
  type : Value
  style : Option Value
  strike_price : Value
  multiplier : Option Value
  size : Option Value
  open_interest : Option Value
  open_interest_date : Option Value
  close_price : Option Value
  close_price_date : Option Value
deriving Repr

/-- The record `fetch_option_contracts` builds from one contract
object.  `underlying_asset_id` is stringified only when truthy; the
`multiplier` cell is `str(getattr(contract, "multiplier", None))`, an
unconditional stringification. -/
def contractRecord (c : UpstreamOptionContract) : Record :=
  [("id", Value.vStr c.id),
   ("symbol", c.symbol),
   ("name", c.name.getD Value.vNone),
   ("status", c.status),
   ("tradable", c.tradable),
   ("expiration_date", c.expiration_date),
   ("root_symbol", c.root_symbol),
   ("underlying_symbol", c.underlying_symbol),
   ("underlying_asset_id",
     if (c.underlying_asset_id.getD Value.vNone).pyTruthy then
       Value.vStr (c.underlying_asset_id.getD Value.vNone).pyStr
     else Value.vNone),
   ("type", c.type),
   ("style", c.style.getD Value.vNone),
   ("strike_price", c.strike_price),
   ("multiplier", Value.vStr (c.multiplier.getD Value.vNone).pyStr),
   ("size", c.size.getD Value.vNone),
   ("open_interest", c.open_interest.getD Value.vNone),
   ("open_interest_date", c.open_interest_date.getD Value.vNone),
   ("close_price", c.close_price.getD Value.vNone),
   ("close_price_date", c.close_price_date.getD Value.vNone)]

/-- The option-contract record schema, in the order the record dict is
built. -/
def contractColumns : List String :=
  ["id", "symbol", "name", "status", "tradable", "expiration_date", "root_symbol",
   "underlying_symbol", "underlying_asset_id", "type", "style", "strike_price",
   "multiplier", "size", "open_interest", "open_interest_date", "close_price",
   "close_price_date"]

/-- The shaping of `fetch_option_contracts` after pagination: zero
accumulated contracts yield a bare empty frame; otherwise the records
are framed and the provenance column stamped. -/
def fetch_option_contracts_df (contracts : List UpstreamOptionContract) : DF :=
  if contracts.isEmpty then ⟨[], [], []⟩
  else
    let df : DF := ⟨[], contractColumns, contracts.map contractRecord⟩
    df.assignConst "source" (Value.vStr "alpaca")

/-- One paginated response: the `option_contracts` attribute when
present, and the `next_page_token` attribute when present. -/
structure PageResp (α : Type) where
  option_contracts : Option (List α)
  next_page_token : Option String
deriving Repr

/-- Python truthiness of the continuation token tested by
`while next_page_token:` — `None` and the empty string are falsy. -/
def tokenTruthy : Option String → Bool
  | Option.none => false
  | some s => !s.isEmpty

/-- The `while next_page_token:` loop of `fetch_option_contracts`: as
long as the token is truthy it is written into the request, the page
fetcher is invoked with it, the page's items are appended, and the next
token taken from the response.  The client maps the request's
`page_token` field to a response.  The fuel argument bounds the number
of iterations the embedding unfolds; the Boolean result is true when
the loop exited by itself within the given fuel. -/
def collectPagesLoop (client : Option String → PageResp α) :
    Nat → Option String → List α → List α × Bool
  | 0, tok, acc => if tokenTruthy tok then (acc, false) else (acc, true)
  | fuel + 1, tok, acc =>
    if tokenTruthy tok then
      let r := client tok
      collectPagesLoop client fuel r.next_page_token (acc ++ r.option_contracts.getD [])
    else (acc, true)

/-- The pagination phase of `fetch_option_contracts`: one initial call
with the request's original token, then the token-following loop. -/
def fetch_option_contracts_pages (client : Option String → PageResp α) (fuel : Nat)
    (initTok : Option String) : List α × Bool :=
  let r := client initTok
  collectPagesLoop client fuel r.next_page_token (r.option_contracts.getD [])

/-- Looking a column up in a mapped record (values transformed, names
kept) transforms the lookup result. -/
theorem lookupCol_mapSnd (r : Record) (f : Value → Value) (c : String) :
    lookupCol (r.map (fun p => (p.1, f p.2))) c = (lookupCol r c).map f := by
  induction r with
  | nil => rfl
  | cons p rest ih =>
    by_cases h : p.1 = c
    · simp [lookupCol, List.find?, h]
    · have hb : (p.1 == c) = false := by simpa using h
      simpa [lookupCol, List.find?, hb] using ih

/-- Looking up a column that occurs in the left part of an appended
record ignores the right part. -/
theorem lookupCol_append_left (r s : Record) (c : String) (h : c ∈ r.map Prod.fst) :
    lookupCol (r ++ s) c = lookupCol r c := by
  induction r with
  | nil => simp at h
  | cons p rest ih =>
    by_cases hp : p.1 = c
    · simp [lookupCol, List.find?, hp]
    · have hb : (p.1 == c) = false := by simpa using hp
      have hc : c ∈ rest.map Prod.fst := by
        rcases (List.mem_map).1 h with ⟨q, hq, hqc⟩
        rcases List.mem_cons.1 hq with rfl | hq'
        · exact absurd hqc hp
        · exact List.mem_map.2 ⟨q, hq', hqc⟩
      simpa [lookupCol, List.find?, hb] using ih hc

/-- The per-row effect of `addIngestedAt` followed by `_to_records`. -/
def dbRow (now : Int) (df : DF) (r : Record) : Record :=
  if "ingested_at" ∈ df.columns then
    r.map (fun p => (p.1, recordCellToDb p.2))
  else
    (r ++ [("ingested_at", Value.scalar (.ts now))]).map (fun p => (p.1, recordCellToDb p.2))

/-- `_to_records` after `addIngestedAt` is the per-row map `dbRow`. -/
theorem to_records_addIngestedAt (now : Int) (df : DF) :
    _to_records (addIngestedAt now df) = df.rows.map (dbRow now df) := by
  unfold _to_records addIngestedAt dbRow
  by_cases h : "ingested_at" ∈ df.columns <;> simp [h]

/-- For a column of the frame, a processed row looks up to the raw
row's value passed through the record-cell conversion; in particular
the write time `now` does not influence it. -/
theorem lookupCol_dbRow (now : Int) (df : DF) (hwf : df.Wf) (row : Record)
    (hrow : row ∈ df.rows) (c : String) (hc : c ∈ df.columns) :
    lookupCol (dbRow now df row) c = (lookupCol row c).map recordCellToDb := by
  unfold dbRow
  by_cases h : "ingested_at" ∈ df.columns
  · simp [h, lookupCol_mapSnd]
  · have hfst : c ∈ row.map Prod.fst := by
      rw [hwf row hrow]
      exact List.mem_append.2 (Or.inr hc)
    have hsplit :
        (row ++ [("ingested_at", Value.scalar (.ts now))]).map
            (fun p => (p.1, recordCellToDb p.2)) =
          row.map (fun p => (p.1, recordCellToDb p.2)) ++
            [("ingested_at", Value.scalar (.ts now))].map
              (fun p => (p.1, recordCellToDb p.2)) := by
      simp
    have hfst' : c ∈ (row.map (fun p => (p.1, recordCellToDb p.2))).map Prod.fst := by
      simpa using hfst
    simp only [h, if_false]
    rw [hsplit, lookupCol_append_left _ _ _ hfst', lookupCol_mapSnd]

/-- The conflict key of a processed row does not depend on the write
time. -/
theorem keyOf_dbRow_now (now now' : Int) (df : DF) (hwf : df.Wf) (row : Record)
    (hrow : row ∈ df.rows) (K : List String) (hK : ∀ c ∈ K, c ∈ df.columns) :
    keyOf K (dbRow now df row) = keyOf K (dbRow now' df row) := by
  unfold keyOf
  refine List.map_congr_left (fun c hc => ?_)
  rw [lookupCol_dbRow now df hwf row hrow c (hK c hc),
    lookupCol_dbRow now' df hwf row hrow c (hK c hc)]

/-- A table contains a row with the given conflict key. -/
def HasKey (K : List String) (t : List Record) (k : List (Option Value)) : Prop :=
  ∃ row ∈ t, keyOf K row = k

/-- A record set is valid for a conflict key when the conflict-key
projections of its records are pairwise distinct (PostgreSQL rejects a
single upsert statement that touches one key twice). -/
def ValidRecords (K : List String) (rs : List Record) : Prop :=
  (rs.map (keyOf K)).Nodup

/-- The number of distinct conflict-key values in a record set. -/
def countDistinctKeys (K : List String) (rs : List Record) : Nat :=
  ((rs.map (keyOf K)).dedup).length

theorem upsertRow_any_iff (K : List String) (t : List Record) (r : Record) :
    (t.any (fun row => keyOf K row == keyOf K r) = true) ↔ HasKey K t (keyOf K r) := by
  simp [HasKey, List.any_eq_true]

/-- After writing a record its key is present. -/
theorem hasKey_upsertRow_self (K : List String) (t : List Record) (r : Record) :
    HasKey K (upsertRow K t r) (keyOf K r) := by
  unfold upsertRow
  by_cases h : t.any (fun row => keyOf K row == keyOf K r) = true
  · rcases (upsertRow_any_iff K t r).1 h with ⟨row, hrow, hkey⟩
    rw [if_pos h]
    refine ⟨r, ?_, rfl⟩
    have : (if keyOf K row == keyOf K r then r else row) ∈
        t.map (fun row => if keyOf K row == keyOf K r then r else row) :=
      List.mem_map.2 ⟨row, hrow, rfl⟩
    simpa [hkey] using this
  · rw [if_neg h]
    exact ⟨r, by simp, rfl⟩

/-- Writing a record preserves every key already present. -/
theorem hasKey_upsertRow_mono (K : List String) (t : List Record) (r : Record)
    (k : List (Option Value)) (h : HasKey K t k) :
    HasKey K (upsertRow K t r) k := by
  rcases h with ⟨row, hrow, hkey⟩
  by_cases hk : keyOf K row = keyOf K r
  · have hkk : k = keyOf K r := by rw [← hkey, hk]
    rw [hkk]
    exact hasKey_upsertRow_self K t r
  · unfold upsertRow
    by_cases hany : t.any (fun row => keyOf K row == keyOf K r) = true
    · rw [if_pos hany]
      refine ⟨row, ?_, hkey⟩
      have hm : (if keyOf K row == keyOf K r then r else row) ∈
          t.map (fun row => if keyOf K row == keyOf K r then r else row) :=
        List.mem_map.2 ⟨row, hrow, rfl⟩
      simpa [hk] using hm
    · rw [if_neg hany]
      exact ⟨row, List.mem_append.2 (Or.inl hrow), hkey⟩

/-- Every row of the written table carrying the written key equals the
written record. -/
theorem upsertRow_rows_at_key (K : List String) (t : List Record) (r : Record)
    (row' : Record) (hmem : row' ∈ upsertRow K t r)
    (hkey : keyOf K row' = keyOf K r) : row' = r := by
  unfold upsertRow at hmem
  by_cases hany : t.any (fun row => keyOf K row == keyOf K r) = true
  · rw [if_pos hany] at hmem
    rcases List.mem_map.1 hmem with ⟨row, hrow, hrow'⟩
    by_cases hk : keyOf K row = keyOf K r
    · rw [← hrow']; simp [hk]
    · have hro : row' = row := by rw [← hrow']; simp [hk]
      rw [hro] at hkey
      exact absurd hkey hk
  · rw [if_neg hany] at hmem
    rcases List.mem_append.1 hmem with hrow | hrow
    · exact absurd ((upsertRow_any_iff K t r).2 ⟨row', hrow, hkey⟩) hany
    · simpa using hrow

/-- Every row of the written table carrying a different key was already
stored. -/
theorem upsertRow_rows_other_key (K : List String) (t : List Record) (r : Record)
    (row' : Record) (hmem : row' ∈ upsertRow K t r)
    (hkey : keyOf K row' ≠ keyOf K r) : row' ∈ t := by
  unfold upsertRow at hmem
  by_cases hany : t.any (fun row => keyOf K row == keyOf K r) = true
  · rw [if_pos hany] at hmem
    rcases List.mem_map.1 hmem with ⟨row, hrow, hrow'⟩
    by_cases hk : keyOf K row = keyOf K r
    · rw [← hrow'] at hkey; simp [hk] at hkey
    · rw [← hrow']; simpa [hk] using hrow
  · rw [if_neg hany] at hmem
    rcases List.mem_append.1 hmem with hrow | hrow
    · exact hrow
    · simp at hrow
      rw [hrow] at hkey
      exact absurd rfl hkey

/-- Writing a record whose key is present keeps the table length. -/
theorem upsertRow_length_of_hasKey (K : List String) (t : List Record) (r : Record)
    (h : HasKey K t (keyOf K r)) : (upsertRow K t r).length = t.length := by
  unfold upsertRow
  rw [if_pos ((upsertRow_any_iff K t r).2 h)]
  simp

/-- Writing a record with a fresh key appends it. -/
theorem upsertRow_of_fresh (K : List String) (t : List Record) (r : Record)
    (h : ¬ HasKey K t (keyOf K r)) : upsertRow K t r = t ++ [r] := by
  unfold upsertRow
  rw [if_neg (fun hany => h ((upsertRow_any_iff K t r).1 hany))]

/-- Re-writing a record that is already stored (its key is present and
every row at that key equals it) leaves the table unchanged. -/
theorem upsertRow_noop (K : List String) (t : List Record) (r : Record)
    (hpresent : HasKey K t (keyOf K r))
    (hstored : ∀ row ∈ t, keyOf K row = keyOf K r → row = r) :
    upsertRow K t r = t := by
  unfold upsertRow
  rw [if_pos ((upsertRow_any_iff K t r).2 hpresent)]
  have : ∀ row ∈ t, (if keyOf K row == keyOf K r then r else row) = row := by
    intro row hrow
    by_cases hk : keyOf K row = keyOf K r
    · simp [hk, (hstored row hrow hk).symm]
    · simp [hk]
  rw [List.map_congr_left this]
  simp

/-- Presence of a key is preserved across a whole statement. -/
theorem hasKey_foldl_mono (K : List String) (rs : List Record) :
    ∀ (t : List Record) (k : List (Option Value)), HasKey K t k →
      HasKey K (rs.foldl (upsertRow K) t) k := by
  induction rs with
  | nil => intro t k h; exact h
  | cons a rest ih => intro t k h; exact ih _ _ (hasKey_upsertRow_mono K t a k h)

/-- After a statement, every sent record's key is present. -/
theorem hasKey_foldl_all (K : List String) (rs : List Record) :
    ∀ (t : List Record), ∀ r ∈ rs,
      HasKey K (rs.foldl (upsertRow K) t) (keyOf K r) := by
  induction rs with
  | nil => intro t r h; simp at h
  | cons a rest ih =>
    intro t r h
    rcases List.mem_cons.1 h with rfl | h'
    · exact hasKey_foldl_mono K rest _ _ (hasKey_upsertRow_self K t r)
    · exact ih _ r h'

/-- If every table row at a given key equals a fixed record and no sent
record carries that key, the statement preserves this. -/
theorem foldl_stored_preserve (K : List String) (rs : List Record)
    (kk : List (Option Value)) (rr : Record) :
    ∀ (t : List Record), (∀ row ∈ t, keyOf K row = kk → row = rr) →
      (∀ r' ∈ rs, keyOf K r' ≠ kk) →
      ∀ row ∈ rs.foldl (upsertRow K) t, keyOf K row = kk → row = rr := by
  induction rs with
  | nil => intro t h _ row hrow hkey; exact h row hrow hkey
  | cons a rest ih =>
    intro t h hne row hrow hkey
    refine ih _ ?_ (fun r' h' => hne r' (List.mem_cons_of_mem a h')) row hrow hkey
    intro row' hrow' hkey'
    have hka : keyOf K a ≠ kk := hne a (List.mem_cons_self a rest)
    have hd : keyOf K row' ≠ keyOf K a := by rw [hkey']; exact fun hh => hka hh.symm
    exact h row' (upsertRow_rows_other_key K t a row' hrow' hd) hkey'

/-- After a valid statement every sent record is stored exactly: each
table row carrying its key equals it. -/
theorem foldl_stored (K : List String) (rs : List Record) :
    ∀ (t : List Record), ValidRecords K rs → ∀ r ∈ rs,
      ∀ row ∈ rs.foldl (upsertRow K) t, keyOf K row = keyOf K r → row = r := by
  induction rs with
  | nil => intro t _ r h; simp at h
  | cons a rest ih =>
    intro t hvalid r hr row hrow hkey
    have hv : (keyOf K a :: rest.map (keyOf K)).Nodup := by
      have := hvalid
      unfold ValidRecords at this
      simpa using this
    have hvr : ValidRecords K rest := (List.nodup_cons.1 hv).2
    have hnotin : keyOf K a ∉ rest.map (keyOf K) := (List.nodup_cons.1 hv).1
    rcases List.mem_cons.1 hr with rfl | hr'
    · refine foldl_stored_preserve K rest (keyOf K r) r (upsertRow K t r) ?_ ?_ row hrow hkey
      · intro row' hrow' hkey'
        exact upsertRow_rows_at_key K t r row' hrow' hkey'
      · intro r' hmem hEq
        exact hnotin (by rw [← hEq]; exact List.mem_map_of_mem (keyOf K) hmem)
    · exact ih _ hvr r hr' row hrow hkey

/-- A statement whose records' keys are all already present keeps the
table length. -/
theorem foldl_length_of_hasKey (K : List String) (rs : List Record) :
    ∀ (t : List Record), (∀ r ∈ rs, HasKey K t (keyOf K r)) →
      (rs.foldl (upsertRow K) t).length = t.length := by
  induction rs with
  | nil => intro t _; rfl
  | cons a rest ih =>
    intro t h
    have ha := h a (List.mem_cons_self a rest)
    have hrest : ∀ r ∈ rest, HasKey K (upsertRow K t a) (keyOf K r) :=
      fun r hr => hasKey_upsertRow_mono K t a _ (h r (List.mem_cons_of_mem a hr))
    rw [List.foldl_cons, ih (upsertRow K t a) hrest,
      upsertRow_length_of_hasKey K t a ha]

/-- A valid statement over entirely fresh keys grows the table by the
number of records sent. -/
theorem foldl_length_of_fresh (K : List String) (rs : List Record) :
    ∀ (t : List Record), ValidRecords K rs →
      (∀ r ∈ rs, ¬ HasKey K t (keyOf K r)) →
      (rs.foldl (upsertRow K) t).length = t.length + rs.length := by
  induction rs with
  | nil => intro t _ _; simp
  | cons a rest ih =>
    intro t hvalid hfresh
    have hv : (keyOf K a :: rest.map (keyOf K)).Nodup := by
      have := hvalid
      unfold ValidRecords at this
      simpa using this
    have hvr : ValidRecords K rest := (List.nodup_cons.1 hv).2
    have hnotin : keyOf K a ∉ rest.map (keyOf K) := (List.nodup_cons.1 hv).1
    have hstep : upsertRow K t a = t ++ [a] :=
      upsertRow_of_fresh K t a (hfresh a (List.mem_cons_self a rest))
    have hfresh' : ∀ r ∈ rest, ¬ HasKey K (t ++ [a]) (keyOf K r) := by
      intro r hr hcontra
      rcases hcontra with ⟨row, hrow, hkey⟩
      rcases List.mem_append.1 hrow with h1 | h1
      · exact hfresh r (List.mem_cons_of_mem a hr) ⟨row, h1, hkey⟩
      · simp at h1
        rw [h1] at hkey
        exact hnotin (by rw [hkey]; exact List.mem_map_of_mem (keyOf K) hr)
    rw [List.foldl_cons, hstep, ih (t ++ [a]) hvr hfresh']
    simp [List.length_append]
    omega

/-- C1: upsert is idempotent.  For a valid record set (well-formed
frame, conflict columns among the frame's columns, pairwise-distinct
conflict keys), repeating `upsert_bars` leaves the row count unchanged,
both calls leave every stored row at a key of the record set carrying
exactly the record's values for all of the record set's columns, and
starting from an empty table the total row count after the two calls
equals the number of distinct conflict-key values of the record set.
The two calls may run at different write times `now₁`, `now₂`; only the
injected `ingested_at` column depends on them. -/
theorem claim_C1_upsert_idempotent (now₁ now₂ : Int) (t : List Record) (df : DF)
    (K : List String) (hwf : df.Wf) (hKne : K ≠ [])
    (hK : ∀ c ∈ K, c ∈ df.columns)
    (hvalid : ValidRecords K (_to_records (addIngestedAt now₁ df))) :
    ((upsert_bars now₂ (upsert_bars now₁ t df K).table df K).table.length =
      (upsert_bars now₁ t df K).table.length) ∧
    (∀ rec ∈ _to_records (addIngestedAt now₁ df), ∀ c ∈ df.columns,
      (∀ row ∈ (upsert_bars now₁ t df K).table,
        keyOf K row = keyOf K rec → lookupCol row c = lookupCol rec c) ∧
      (∀ row ∈ (upsert_bars now₂ (upsert_bars now₁ t df K).table df K).table,
        keyOf K row = keyOf K rec → lookupCol row c = lookupCol rec c)) ∧
    ((upsert_bars now₂ (upsert_bars now₁ [] df K).table df K).table.length =
      countDistinctKeys K (_to_records (addIngestedAt now₁ df))) := by
  by_cases hemp : df.isEmpty = true
  · have hcol : df.columns ≠ [] := by
      rcases K with _ | ⟨c, K'⟩
      · exact absurd rfl hKne
      · intro hc
        have hcmem := hK c (List.mem_cons_self c K')
        rw [hc] at hcmem
        simp at hcmem
    have hrows : df.rows = [] := by
      unfold DF.isEmpty at hemp
      rcases Bool.or_eq_true_iff.1 hemp with h | h
      · exact List.isEmpty_iff.1 h
      · exact absurd (List.isEmpty_iff.1 h) hcol
    have hrecs : _to_records (addIngestedAt now₁ df) = [] := by
      rw [to_records_addIngestedAt, hrows]
      rfl
    have hupe : ∀ (now : Int) (tt : List Record), upsert_bars now tt df K = ⟨tt, 0, false⟩ := by
      intro now tt
      unfold upsert_bars
      rw [if_pos hemp]
    refine ⟨by simp [hupe], ?_, ?_⟩
    · intro rec hrec
      rw [hrecs] at hrec
      simp at hrec
    · simp [hupe, countDistinctKeys, hrecs]
  · have hne : ¬ df.isEmpty = true := hemp
    have hup : ∀ (now : Int) (tt : List Record),
        upsert_bars now tt df K =
          ⟨(_to_records (addIngestedAt now df)).foldl (upsertRow K) tt,
            (_to_records (addIngestedAt now df)).length, true⟩ := by
      intro now tt
      unfold upsert_bars
      rw [if_neg hne]
    have hrecs₁m : _to_records (addIngestedAt now₁ df) = df.rows.map (dbRow now₁ df) :=
      to_records_addIngestedAt now₁ df
    have hrecs₂m : _to_records (addIngestedAt now₂ df) = df.rows.map (dbRow now₂ df) :=
      to_records_addIngestedAt now₂ df
    have hkey12 : ∀ row ∈ df.rows,
        keyOf K (dbRow now₂ df row) = keyOf K (dbRow now₁ df row) :=
      fun row hrow => keyOf_dbRow_now now₂ now₁ df hwf row hrow K hK
    have hmapkeys : (_to_records (addIngestedAt now₂ df)).map (keyOf K) =
        (_to_records (addIngestedAt now₁ df)).map (keyOf K) := by
      rw [hrecs₁m, hrecs₂m, List.map_map, List.map_map]
      exact List.map_congr_left (fun row hrow => hkey12 row hrow)
    have hvalid₂ : ValidRecords K (_to_records (addIngestedAt now₂ df)) := by
      unfold ValidRecords at hvalid ⊢
      rw [hmapkeys]
      exact hvalid
    have hpresent₂ : ∀ (tt : List Record), ∀ r₂ ∈ _to_records (addIngestedAt now₂ df),
        HasKey K ((_to_records (addIngestedAt now₁ df)).foldl (upsertRow K) tt)
          (keyOf K r₂) := by
      intro tt r₂ hr₂
      rw [hrecs₂m] at hr₂
      rcases List.mem_map.1 hr₂ with ⟨row, hrow, rfl⟩
      rw [hkey12 row hrow]
      have hmem₁ : dbRow now₁ df row ∈ _to_records (addIngestedAt now₁ df) := by
        rw [hrecs₁m]
        exact List.mem_map_of_mem _ hrow
      exact hasKey_foldl_all K _ tt _ hmem₁
    have hlen2 : ∀ (tt : List Record),
        (upsert_bars now₂ (upsert_bars now₁ tt df K).table df K).table.length =
          (upsert_bars now₁ tt df K).table.length := by
      intro tt
      rw [hup now₁ tt, hup now₂ _]
      exact foldl_length_of_hasKey K _ _ (hpresent₂ tt)
    refine ⟨hlen2 t, ?_, ?_⟩
    · intro rec hrec c hc
      constructor
      · intro row hrow hkeyrow
        have hrw : row = rec := by
          rw [hup now₁ t] at hrow
          exact foldl_stored K _ t hvalid rec hrec row hrow hkeyrow
        rw [hrw]
      · intro row hrow hkeyrow
        rcases List.mem_map.1 (by rw [← hrecs₁m]; exact hrec :
            rec ∈ df.rows.map (dbRow now₁ df)) with ⟨row₀, hrow₀, hrec₀⟩
        have hmem₂ : dbRow now₂ df row₀ ∈ _to_records (addIngestedAt now₂ df) := by
          rw [hrecs₂m]
          exact List.mem_map_of_mem _ hrow₀
        have hkeq : keyOf K (dbRow now₂ df row₀) = keyOf K rec := by
          rw [← hrec₀]
          exact hkey12 row₀ hrow₀
        have hrw : row = dbRow now₂ df row₀ := by
          rw [hup now₁ t, hup now₂ _] at hrow
          refine foldl_stored K _ _ hvalid₂ _ hmem₂ row hrow ?_
          rw [hkeyrow, hkeq]
        rw [hrw, lookupCol_dbRow now₂ df hwf row₀ hrow₀ c hc, ← hrec₀,
          lookupCol_dbRow now₁ df hwf row₀ hrow₀ c hc]
    · have hfresh : ∀ r ∈ _to_records (addIngestedAt now₁ df),
          ¬ HasKey K ([] : List Record) (keyOf K r) := by
        intro r _ hcontra
        rcases hcontra with ⟨row, hrow, _⟩
        simp at hrow
      have hlen1 : (upsert_bars now₁ [] df K).table.length =
          (_to_records (addIngestedAt now₁ df)).length := by
        rw [hup now₁ []]
        have := foldl_length_of_fresh K (_to_records (addIngestedAt now₁ df)) [] hvalid hfresh
        simpa using this
      rw [hlen2 [], hlen1]
      unfold countDistinctKeys
      rw [List.dedup_eq_self.mpr hvalid]
      exact (List.length_map _ _).symm

/-- The conflict columns used for every bars upsert call site. -/
def barConflictColumns : List String := ["symbol", "timestamp", "timeframe"]

/-- A two-row stock-bars record set with distinct conflict keys. -/
def barsSampleDF : DF :=
  ⟨[], ["symbol", "timestamp", "timeframe", "open"],
   [[("symbol", Value.vStr "AAPL"), ("timestamp", Value.scalar (.ts 0)),
     ("timeframe", Value.vStr "1Day"), ("open", Value.scalar (.float "100.0"))],
    [("symbol", Value.vStr "MSFT"), ("timestamp", Value.scalar (.ts 0)),
     ("timeframe", Value.vStr "1Day"), ("open", Value.scalar (.float "200.0"))]]⟩

theorem claim_C1_upsert_idempotent_witness :
    ((upsert_bars 2 (upsert_bars 1 [] barsSampleDF barConflictColumns).table
        barsSampleDF barConflictColumns).table.length =
      (upsert_bars 1 [] barsSampleDF barConflictColumns).table.length) ∧
    (∀ rec ∈ _to_records (addIngestedAt 1 barsSampleDF), ∀ c ∈ barsSampleDF.columns,
      (∀ row ∈ (upsert_bars 1 [] barsSampleDF barConflictColumns).table,
        keyOf barConflictColumns row = keyOf barConflictColumns rec →
          lookupCol row c = lookupCol rec c) ∧
      (∀ row ∈ (upsert_bars 2 (upsert_bars 1 [] barsSampleDF barConflictColumns).table
          barsSampleDF barConflictColumns).table,
        keyOf barConflictColumns row = keyOf barConflictColumns rec →
          lookupCol row c = lookupCol rec c)) ∧
    ((upsert_bars 2 (upsert_bars 1 [] barsSampleDF barConflictColumns).table
        barsSampleDF barConflictColumns).table.length =
      countDistinctKeys barConflictColumns (_to_records (addIngestedAt 1 barsSampleDF))) :=
  claim_C1_upsert_idempotent 1 2 [] barsSampleDF barConflictColumns
    (by unfold DF.Wf; decide) (by decide) (by decide)
    (by unfold ValidRecords; decide)

/-- An empty raw response frame: an empty upstream payload framed by
pandas has zero rows and zero columns. -/
def emptyRawDF : DF := ⟨[], [], []⟩

/-- C5 counterexample: normalizing an empty raw news response does not
yield the full fixed news column set — `fetch_news_articles` returns
the empty frame unchanged, before any column injection, so the result
has zero columns while the fixed news schema is non-empty. -/
theorem claim_C5_counterexample :
    (fetch_news_df emptyRawDF).columns = [] ∧ newsExpectedColumns ≠ [] := by
  constructor
  · rfl
  · decide

/-- C5 amended: on empty input the bars normalizer yields zero rows
with the fixed ten-column bar schema (plus a None `exchange` column for
crypto; the option-specific defaults and the `source` column are not
added on the empty path), while the news, assets and option-contracts
normalizers yield an entirely empty record set with zero columns; every
upsert operation on an empty record set returns 0, leaves the table
unchanged and opens no transaction. -/
theorem claim_C5_empty_input (df raw : DF) (tf : String) (now : Int) (t : List Record)
    (K : List String) (hdf : df.isEmpty = true) (hraw : raw.isEmpty = true) :
    prepare_bars_dataframe df tf = ⟨[], barEmptyColumns, []⟩ ∧
    fetch_stock_df df tf = ⟨[], barEmptyColumns, []⟩ ∧
    fetch_crypto_df df tf = ⟨[], barEmptyColumns ++ ["exchange"], []⟩ ∧
    fetch_option_df df tf = ⟨[], barEmptyColumns, []⟩ ∧
    fetch_news_df raw = raw ∧
    fetch_assets_df [] = ⟨[], [], []⟩ ∧
    fetch_option_contracts_df [] = ⟨[], [], []⟩ ∧
    upsert_bars now t df K = ⟨t, 0, false⟩ ∧
    upsert_news now t df = Except.ok ⟨t, 0, false⟩ ∧
    upsert_assets now t df = ⟨t, 0, false⟩ ∧
    upsert_option_contracts now t df = ⟨t, 0, false⟩ := by
  have hprep : prepare_bars_dataframe df tf = ⟨[], barEmptyColumns, []⟩ := by
    unfold prepare_bars_dataframe
    rw [if_pos hdf]
  refine ⟨hprep, ?_, ?_, ?_, ?_, rfl, rfl, ?_, ?_, ?_, ?_⟩
  · unfold fetch_stock_df
    rw [hprep]
    rfl
  · unfold fetch_crypto_df
    rw [hprep]
    rfl
  · unfold fetch_option_df
    rw [hprep]
    rfl
  · unfold fetch_news_df
    rw [if_pos hraw]
  · unfold upsert_bars
    rw [if_pos hdf]
  · unfold upsert_news
    rw [if_pos hdf]
  · unfold upsert_assets
    rw [if_pos hdf]
  · unfold upsert_option_contracts
    rw [if_pos hdf]

theorem claim_C5_empty_input_witness :
    prepare_bars_dataframe emptyRawDF "1Day" = ⟨[], barEmptyColumns, []⟩ ∧
    fetch_stock_df emptyRawDF "1Day" = ⟨[], barEmptyColumns, []⟩ ∧
    fetch_crypto_df emptyRawDF "1Day" = ⟨[], barEmptyColumns ++ ["exchange"], []⟩ ∧
    fetch_option_df emptyRawDF "1Day" = ⟨[], barEmptyColumns, []⟩ ∧
    fetch_news_df emptyRawDF = emptyRawDF ∧
    fetch_assets_df [] = ⟨[], [], []⟩ ∧
    fetch_option_contracts_df [] = ⟨[], [], []⟩ ∧
    upsert_bars 0 [] emptyRawDF barConflictColumns = ⟨[], 0, false⟩ ∧
    upsert_news 0 [] emptyRawDF = Except.ok ⟨[], 0, false⟩ ∧
    upsert_assets 0 [] emptyRawDF = ⟨[], 0, false⟩ ∧
    upsert_option_contracts 0 [] emptyRawDF = ⟨[], 0, false⟩ :=
  claim_C5_empty_input emptyRawDF emptyRawDF "1Day" 0 [] barConflictColumns rfl rfl

/-- The rate-limited upstream failure used in the ingestion-flow
claims. -/
def rateLimit429 : PyExc := { isAPIError := true, status_code := some 429 }

/-- An upstream client that fails rate-limited on every invocation. -/
def always429Client : Nat → Except PyExc DF := fun _ => .error rateLimit429

/-- C4 counterexample: the crypto-bars fetch of the ingestion flow does
not run through the retry policy — with an upstream client that always
fails rate-limited it is invoked exactly once and the failure
propagates on first occurrence; the option-bars fetch behaves the same
way. -/
theorem claim_C4_counterexample :
    fetch_crypto_historical always429Client "1Min" = (.error rateLimit429, 1) ∧
    fetch_option_historical always429Client "1Min" = (.error rateLimit429, 1) :=
  ⟨rfl, rfl⟩

/-- C4 amended: in the ingestion flows, the stock-bars and news fetches
run under the retry policy — a persistently rate-limited upstream call
is invoked 5 times before the failure is re-raised — while the
crypto-bars and option-bars fetches call the upstream client directly:
exactly one invocation, the rate-limit failure propagating on first
occurrence. -/
theorem claim_C4_flow_retry (e : PyExc) (client : Nat → Except PyExc DF) (tf : String)
    (hfail : ∀ n, client n = .error e) (_hapi : e.isAPIError = true)
    (h429 : e.status_code = some 429) :
    fetch_stock_historical client tf = (.error e, 5) ∧
    fetch_news_articles client = (.error e, 5) ∧
    fetch_crypto_historical client tf = (.error e, 1) ∧
    fetch_option_historical client tf = (.error e, 1) := by
  have hrl : is_rate_limit_error e = true := is_rate_limit_error_of_429 e h429
  have hofail : ∀ (f : DF → DF) (n : Nat), (client n).map f = .error e := by
    intro f n
    rw [hfail n]
    rfl
  refine ⟨?_, ?_, ?_, ?_⟩
  · have h := tenacityLoop_all_fail (fun n => (client n).map (fun raw => fetch_stock_df raw tf))
      (fun _ => e) (fun n => hofail _ n) (fun _ => hrl) 4 1
    simpa [fetch_stock_historical, alpaca_retry, alpaca_retry_stop_attempts] using h
  · have h := tenacityLoop_all_fail (fun n => (client n).map fetch_news_df)
      (fun _ => e) (fun n => hofail _ n) (fun _ => hrl) 4 1
    simpa [fetch_news_articles, alpaca_retry, alpaca_retry_stop_attempts] using h
  · unfold fetch_crypto_historical
    rw [hfail 1]
    rfl
  · unfold fetch_option_historical
    rw [hfail 1]
    rfl

theorem claim_C4_flow_retry_witness :
    fetch_stock_historical always429Client "1Day" = (.error rateLimit429, 5) ∧
    fetch_news_articles always429Client = (.error rateLimit429, 5) ∧
    fetch_crypto_historical always429Client "1Day" = (.error rateLimit429, 1) ∧
    fetch_option_historical always429Client "1Day" = (.error rateLimit429, 1) :=
  claim_C4_flow_retry rateLimit429 always429Client "1Day"
    (fun _ => rfl) rfl rfl

/-- A contract object whose optional attributes, `multiplier` included,
are all missing. -/
def contractNoOptionals : UpstreamOptionContract :=
  { id := "11111111-1111-1111-1111-111111111111",
    symbol := Value.vStr "AAPL230118C00145000",
    name := Option.none,
    status := Value.vStr "active",
    tradable := Value.scalar (.bool true),
    expiration_date := Value.vStr "2023-01-18",
    root_symbol := Value.vStr "AAPL",
    underlying_symbol := Value.vStr "AAPL",
    underlying_asset_id := Option.none,
    type := Value.vStr "call",
    style := Option.none,
    strike_price := Value.scalar (.dec "145.0000"),
    multiplier := Option.none,
    size := Option.none,
    open_interest := Option.none,
    open_interest_date := Option.none,
    close_price := Option.none,
    close_price_date := Option.none }

/-- C7 counterexample: a contract whose `multiplier` attribute is
missing is normalized to the non-null placeholder string "None" in the
`multiplier` column — `str(getattr(contract, "multiplier", None))` —
not to null. -/
theorem claim_C7_counterexample :
    lookupCol (contractRecord contractNoOptionals) "multiplier" =
      some (Value.vStr "None") ∧
    Value.vStr "None" ≠ Value.vNone := by
  constructor
  · decide
  · decide

/-- C7 amended: the Assets and OptionContracts normalizers map every
upstream object's attributes into their fixed schemas, and a missing
optional attribute becomes null — except the OptionContracts
`multiplier`, whose missing value is stringified to the placeholder
string "None". -/
theorem claim_C7_optional_defaults (a : UpstreamAsset) (c : UpstreamOptionContract)
    (ha1 : a.name = Option.none) (ha2 : a.marginable = Option.none)
    (ha3 : a.shortable = Option.none) (ha4 : a.easy_to_borrow = Option.none)
    (ha5 : a.fractionable = Option.none) (ha6 : a.options_enabled = Option.none)
    (ha7 : a.maintenance_margin_requirement = Option.none)
    (ha8 : a.min_order_size = Option.none) (ha9 : a.min_trade_increment = Option.none)
    (ha10 : a.price_increment = Option.none)
    (hc1 : c.name = Option.none) (hc2 : c.underlying_asset_id = Option.none)
    (hc3 : c.style = Option.none) (hc4 : c.multiplier = Option.none)
    (hc5 : c.size = Option.none) (hc6 : c.open_interest = Option.none)
    (hc7 : c.open_interest_date = Option.none) (hc8 : c.close_price = Option.none)
    (hc9 : c.close_price_date = Option.none) :
    (assetRecord a).map Prod.fst = assetColumns ∧
    (contractRecord c).map Prod.fst = contractColumns ∧
    lookupCol (assetRecord a) "name" = some Value.vNone ∧
    lookupCol (assetRecord a) "marginable" = some Value.vNone ∧
    lookupCol (assetRecord a) "shortable" = some Value.vNone ∧
    lookupCol (assetRecord a) "easy_to_borrow" = some Value.vNone ∧
    lookupCol (assetRecord a) "fractionable" = some Value.vNone ∧
    lookupCol (assetRecord a) "options_enabled" = some Value.vNone ∧
    lookupCol (assetRecord a) "maintenance_margin_requirement" = some Value.vNone ∧
    lookupCol (assetRecord a) "min_order_size" = some Value.vNone ∧
    lookupCol (assetRecord a) "min_trade_increment" = some Value.vNone ∧
    lookupCol (assetRecord a) "price_increment" = some Value.vNone ∧
    lookupCol (contractRecord c) "name" = some Value.vNone ∧
    lookupCol (contractRecord c) "underlying_asset_id" = some Value.vNone ∧
    lookupCol (contractRecord c) "style" = some Value.vNone ∧
    lookupCol (contractRecord c) "size" = some Value.vNone ∧
    lookupCol (contractRecord c) "open_interest" = some Value.vNone ∧
    lookupCol (contractRecord c) "open_interest_date" = some Value.vNone ∧
    lookupCol (contractRecord c) "close_price" = some Value.vNone ∧
    lookupCol (contractRecord c) "close_price_date" = some Value.vNone ∧
    lookupCol (contractRecord c) "multiplier" = some (Value.vStr "None") := by
  refine ⟨rfl, rfl, ?_, ?_, ?_, ?_, ?_, ?_, ?_, ?_, ?_, ?_, ?_, ?_, ?_, ?_, ?_, ?_, ?_, ?_, ?_⟩
  all_goals
    simp [assetRecord, contractRecord, lookupCol, List.find?, ha1, ha2, ha3, ha4, ha5,
      ha6, ha7, ha8, ha9, ha10, hc1, hc2, hc3, hc4, hc5, hc6, hc7, hc8, hc9,
      Value.vNone, Value.vStr, Value.pyTruthy, Scalar.pyTruthy, Value.pyStr, Scalar.pyStr]

/-- An asset object with every optional attribute missing. -/
def assetNoOptionals : UpstreamAsset :=
  { id := "22222222-2222-2222-2222-222222222222",
    asset_class := some (Value.vStr "us_equity"),
    class_ := Value.vStr "us_equity",
    exchange := Value.vStr "NASDAQ",
    symbol := Value.vStr "AAPL",
    name := Option.none,
    status := Value.vStr "active",
    tradable := Value.scalar (.bool true),
    marginable := Option.none,
    shortable := Option.none,
    easy_to_borrow := Option.none,
    fractionable := Option.none,
    options_enabled := Option.none,
    maintenance_margin_requirement := Option.none,
    min_order_size := Option.none,
    min_trade_increment := Option.none,
    price_increment := Option.none }

theorem claim_C7_optional_defaults_witness :
    (assetRecord assetNoOptionals).map Prod.fst = assetColumns ∧
    (contractRecord contractNoOptionals).map Prod.fst = contractColumns ∧
    lookupCol (assetRecord assetNoOptionals) "name" = some Value.vNone ∧
    lookupCol (assetRecord assetNoOptionals) "marginable" = some Value.vNone ∧
    lookupCol (assetRecord assetNoOptionals) "shortable" = some Value.vNone ∧
    lookupCol (assetRecord assetNoOptionals) "easy_to_borrow" = some Value.vNone ∧
    lookupCol (assetRecord assetNoOptionals) "fractionable" = some Value.vNone ∧
    lookupCol (assetRecord assetNoOptionals) "options_enabled" = some Value.vNone ∧
    lookupCol (assetRecord assetNoOptionals) "maintenance_margin_requirement" =
      some Value.vNone ∧
    lookupCol (assetRecord assetNoOptionals) "min_order_size" = some Value.vNone ∧
    lookupCol (assetRecord assetNoOptionals) "min_trade_increment" = some Value.vNone ∧
    lookupCol (assetRecord assetNoOptionals) "price_increment" = some Value.vNone ∧
    lookupCol (contractRecord contractNoOptionals) "name" = some Value.vNone ∧
    lookupCol (contractRecord contractNoOptionals) "underlying_asset_id" = some Value.vNone ∧
    lookupCol (contractRecord contractNoOptionals) "style" = some Value.vNone ∧
    lookupCol (contractRecord contractNoOptionals) "size" = some Value.vNone ∧
    lookupCol (contractRecord contractNoOptionals) "open_interest" = some Value.vNone ∧
    lookupCol (contractRecord contractNoOptionals) "open_interest_date" = some Value.vNone ∧
    lookupCol (contractRecord contractNoOptionals) "close_price" = some Value.vNone ∧
    lookupCol (contractRecord contractNoOptionals) "close_price_date" = some Value.vNone ∧
    lookupCol (contractRecord contractNoOptionals) "multiplier" = some (Value.vStr "None") :=
  claim_C7_optional_defaults assetNoOptionals contractNoOptionals
    rfl rfl rfl rfl rfl rfl rfl rfl rfl rfl rfl rfl rfl rfl rfl rfl rfl rfl rfl

/-- C8 counterexample: a list is not normalized to the list of its
elements as strings — a None element is dropped rather than
stringified: `["AAPL", None]` normalizes to `["AAPL"]`, not to
`["AAPL", "None"]`. -/
theorem claim_C8_counterexample :
    news_normalize_symbols (.pylist [.str "AAPL", .none]) = ["AAPL"] ∧
    news_normalize_symbols (.pylist [.str "AAPL", .none]) ≠
      [Scalar.pyStr (.str "AAPL"), Scalar.pyStr .none] := by
  constructor
  · decide
  · decide

/-- C8 amended: a null or NaN symbols value normalizes to the empty
list, any non-null non-NaN scalar to the one-element list of its string
form, and a list or tuple to the list of its non-None elements as
strings in order (None elements are dropped); the copies of the
normalizer in the news fetcher and in the repository agree on every
input.  In particular null becomes `[]`, "AAPL" becomes `["AAPL"]` and
`["AAPL","MSFT"]` stays `["AAPL","MSFT"]`. -/
theorem claim_C8_symbols_normalization (xs : List Scalar) (v : Value)
    (hvl : ∀ ys : List Scalar, v ≠ .pylist ys) (hvt : ∀ ys : List Scalar, v ≠ .pytuple ys)
    (hvn : v ≠ Value.vNone) (hvnan : v ≠ .scalar .nan) :
    news_normalize_symbols Value.vNone = [] ∧
    news_normalize_symbols (.scalar .nan) = [] ∧
    news_normalize_symbols (Value.vStr "AAPL") = ["AAPL"] ∧
    news_normalize_symbols (.pylist [.str "AAPL", .str "MSFT"]) = ["AAPL", "MSFT"] ∧
    news_normalize_symbols (.pylist xs) =
      (xs.filter (fun x => !x.isNone)).map Scalar.pyStr ∧
    news_normalize_symbols (.pytuple xs) =
      (xs.filter (fun x => !x.isNone)).map Scalar.pyStr ∧
    news_normalize_symbols v = [v.pyStr] ∧
    (∀ w : Value, news_normalize_symbols w = repo_normalize_symbols w) := by
  refine ⟨rfl, rfl, rfl, by decide, rfl, rfl, ?_, ?_⟩
  · rcases v with s | ys | ys
    · rcases s with _ | _ | s | n | b | n | n | d | f
      · exact absurd rfl hvn
      · exact absurd rfl hvnan
      all_goals rfl
    · exact absurd rfl (hvl ys)
    · exact absurd rfl (hvt ys)
  · intro w
    rcases w with s | ys | ys
    · rcases s <;> rfl
    · rfl
    · rfl

theorem claim_C8_symbols_normalization_witness :
    news_normalize_symbols Value.vNone = [] ∧
    news_normalize_symbols (.scalar .nan) = [] ∧
    news_normalize_symbols (Value.vStr "AAPL") = ["AAPL"] ∧
    news_normalize_symbols (.pylist [.str "AAPL", .str "MSFT"]) = ["AAPL", "MSFT"] ∧
    news_normalize_symbols (.pylist [.str "TSLA", .none]) =
      (([.str "TSLA", .none] : List Scalar).filter (fun x => !x.isNone)).map Scalar.pyStr ∧
    news_normalize_symbols (.pytuple [.str "TSLA", .none]) =
      (([.str "TSLA", .none] : List Scalar).filter (fun x => !x.isNone)).map Scalar.pyStr ∧
    news_normalize_symbols (.scalar (.int 42)) = [(Value.scalar (.int 42)).pyStr] ∧
    (∀ w : Value, news_normalize_symbols w = repo_normalize_symbols w) :=
  claim_C8_symbols_normalization [.str "TSLA", .none] (.scalar (.int 42))
    (fun ys => by simp) (fun ys => by simp) (by decide) (by decide)

/-- A continuation token encoding a page index as a string of that
length; it is nonempty (hence truthy) for positive indices. -/
def pageToken (i : Nat) : String := String.mk (List.replicate i 'x')

/-- A provider serving a fixed finite chain of pages: the request's
token selects the page (no token selects page 0), each response carries
that page's items and the token of the next page, and the last response
carries no token. -/
def chainClient (pages : List (List α)) (tok : Option String) : PageResp α :=
  let i := match tok with
    | Option.none => 0
    | some s => s.length
  { option_contracts := some (pages.getD i []),
    next_page_token :=
      if i + 1 < pages.length then some (pageToken (i + 1)) else Option.none }

theorem pageToken_length (i : Nat) : (pageToken i).length = i := by
  simp [pageToken, String.length]

theorem tokenTruthy_pageToken (i : Nat) (h : 1 ≤ i) :
    tokenTruthy (some (pageToken i)) = true := by
  have hne : (pageToken i).isEmpty = false := by
    rcases he : (pageToken i).isEmpty with _ | _
    · rfl
    · have hs : pageToken i = "" := (String.isEmpty_iff (pageToken i)).1 he
      have hl := pageToken_length i
      rw [hs] at hl
      simp at hl
      omega
  simp [tokenTruthy, hne]

/-- Following the chain from page `i` accumulates exactly the remaining
pages, in order, and terminates. -/
theorem collectPagesLoop_chain {α : Type} (pages : List (List α)) :
    ∀ (fuel i : Nat) (acc : List α), 1 ≤ i → pages.length - i ≤ fuel →
      collectPagesLoop (chainClient pages) fuel
        (if i < pages.length then some (pageToken i) else Option.none) acc =
      (acc ++ (pages.drop i).flatten, true) := by
  intro fuel
  induction fuel with
  | zero =>
    intro i acc hi hfuel
    have hge : pages.length ≤ i := by omega
    rw [if_neg (by omega), List.drop_eq_nil_of_le hge]
    simp [collectPagesLoop, tokenTruthy]
  | succ fuel ih =>
    intro i acc hi hfuel
    by_cases hlt : i < pages.length
    · rw [if_pos hlt]
      have htru : tokenTruthy (some (pageToken i)) = true := tokenTruthy_pageToken i hi
      rw [collectPagesLoop, if_pos htru]
      have hcc : chainClient pages (some (pageToken i)) =
          { option_contracts := some (pages.getD i []),
            next_page_token :=
              if i + 1 < pages.length then some (pageToken (i + 1)) else Option.none } := by
        simp [chainClient, pageToken_length]
      rw [hcc]
      have hrec := ih (i + 1) (acc ++ pages.getD i []) (by omega) (by omega)
      simp only [Option.getD_some]
      rw [hrec, List.getD_eq_getElem pages [] hlt, List.drop_eq_getElem_cons hlt,
        List.flatten_cons]
      simp [List.append_assoc]
    · rw [if_neg hlt, List.drop_eq_nil_of_le (by omega)]
      simp [collectPagesLoop, tokenTruthy]

/-- C9: the pagination loop of `fetch_option_contracts` writes each
response's continuation token into the request before the next call,
terminates exactly when a response carries no token, and accumulates
the pages in provider order then within-page order.  For any finite
token-linked chain the result is the concatenation of all pages; for 2
pages of sizes 2 and 1 the result has exactly those 3 rows in order; an
empty first page with no token yields an empty result, not an error;
and against a provider that always returns a continuation token the
loop never exits by itself within any amount of fuel. -/
theorem claim_C9_pagination {α : Type} (pages : List (List α)) (p1 p2 p3 : α) :
    fetch_option_contracts_pages (chainClient pages) pages.length Option.none =
      (pages.flatten, true) ∧
    fetch_option_contracts_pages (chainClient [[p1, p2], [p3]]) 2 Option.none =
      ([p1, p2, p3], true) ∧
    fetch_option_contracts_pages (chainClient ([[]] : List (List α))) 1 Option.none =
      ([], true) ∧
    (∀ (fuel : Nat) (acc : List α) (tok : Option String), tokenTruthy tok = true →
      (collectPagesLoop (fun _ => PageResp.mk (some []) (some "t")) fuel tok acc).2 =
        false) := by
  have hgen : ∀ (ps : List (List α)),
      fetch_option_contracts_pages (chainClient ps) ps.length Option.none =
        (ps.flatten, true) := by
    intro ps
    unfold fetch_option_contracts_pages
    cases ps with
    | nil => simp [chainClient, collectPagesLoop, tokenTruthy]
    | cons p rest =>
      have hcc : chainClient (p :: rest) Option.none =
          { option_contracts := some ((p :: rest).getD 0 []),
            next_page_token :=
              if 0 + 1 < (p :: rest).length then some (pageToken (0 + 1))
              else Option.none } := rfl
      rw [hcc]
      have hrec := collectPagesLoop_chain (p :: rest) (p :: rest).length 1 p
        (by omega) (by omega)
      simp only [Option.getD_some]
      simp only [Nat.zero_add] at hrec ⊢
      rw [show (p :: rest).getD 0 [] = p from rfl, hrec]
      simp
  refine ⟨hgen pages, ?_, ?_, ?_⟩
  · simpa using hgen [[p1, p2], [p3]]
  · simpa using hgen [[]]
  · intro fuel
    induction fuel with
    | zero =>
      intro acc tok htok
      simp [collectPagesLoop, htok]
    | succ fuel ih =>
      intro acc tok htok
      rw [collectPagesLoop, if_pos htok]
      exact ih _ (some "t") (by decide)
